import Mathlib

/-!
Verification development for the husker-schedules repository.

The repository is a Python pipeline (scripts/schedule_fetcher.py and
scripts/html_generator.py).  This file gives a shallow embedding of the
pieces of that code that the verified properties are about:

* the fenced code-block extractor `_extract_code_blocks` (a Python regex
  scan, embedded here as an explicit left-to-right matcher over `List Char`);
* the Claude API conversation driver `_call_claude_api` (the bounded
  tool-use loop and the nested rate-limit retry loop, embedded as pure
  functions over an abstract response oracle);
* the artifact writer `_download_artifact` (file-system writes embedded
  as an explicit event trace);
* the HTML renderer (`format_game_row`, `generate_sport_section`,
  `generate_html` from html_generator.py).

All text is modelled as `List Char`; string literals from the source are
written as Lean string literals and converted with `.data`.
-/

/-- The backtick character (U+0060), written via its code point. -/
def btick : Char := Char.ofNat 96

/-- The characters removed by Python `str.strip()` (ASCII whitespace;
the Unicode space characters that Python additionally strips do not
occur in this code base). -/
def isPySpace (c : Char) : Bool :=
  c = ' ' || c = '\t' || c = '\n' || c = '\r' || c = '\x0b' || c = '\x0c'

/-- Python `str.strip()`: remove leading and trailing whitespace. -/
def pyStrip (s : List Char) : List Char :=
  ((s.dropWhile isPySpace).reverse.dropWhile isPySpace).reverse

/-- Python `str.lower()` restricted to ASCII letters (the only letters this
code base compares). -/
def lowerL (s : List Char) : List Char := s.map Char.toLower

/-- Python `str.upper()` restricted to ASCII letters. -/
def upperL (s : List Char) : List Char := s.map Char.toUpper

/-- If `p` is a literal that the text `s` starts with, return the rest of
`s` after `p`; otherwise `none`. -/
def stripLit : List Char → List Char → Option (List Char)
  | [], s => some s
  | _ :: _, [] => none
  | p :: ps, c :: cs => if p = c then stripLit ps cs else none

/-- Python `str.startswith`. -/
def startsWithL (p s : List Char) : Bool := (stripLit p s).isSome

/-- Python substring test (`pat in s`). -/
def containsL (pat : List Char) : List Char → Bool
  | [] => (stripLit pat []).isSome
  | c :: rest => (stripLit pat (c :: rest)).isSome || containsL pat rest

/-- Split a character list at every occurrence of `c` (Python `str.split`). -/
def splitOnChar (c : Char) : List Char → List (List Char)
  | [] => [[]]
  | x :: xs =>
    match splitOnChar c xs with
    | [] => [[]]
    | p :: ps => if x = c then [] :: p :: ps else (x :: p) :: ps

/-- Split off the first line: text before the first newline and the text
after it; `none` when there is no newline at all.  This is how the regex
piece `([^\n]+)\n` consumes the filename part of an opening fence. -/
def takeLine : List Char → Option (List Char × List Char)
  | [] => none
  | c :: rest =>
    if c = '\n' then some ([], rest)
    else
      match takeLine rest with
      | none => none
      | some (a, b) => some (c :: a, b)

/-! ## The fenced-block extractor (`_extract_code_blocks`)

The Python code runs `re.findall(r'```(?:csv|html):([^\n]+)\n(.*?)```',
text, re.DOTALL)`.  The functions below implement exactly that scan:
`matchAt` decides whether the pattern matches at the current position
(the lazy group `(.*?)` takes the text up to the first closing fence),
and `findAll` performs the left-to-right non-overlapping scan of
`re.findall`. -/

/-- The three-backtick fence. -/
def fenceL : List Char := [btick, btick, btick]

/-- Does the text begin with a three-backtick fence? -/
def isFence (s : List Char) : Bool :=
  match s with
  | a :: b :: c :: _ => a == btick && b == btick && c == btick
  | _ => false

/-- Split the text at the first occurrence of a three-backtick fence:
the text before it and the text after it.  This is the lazy group
`(.*?)` followed by the literal closing fence. -/
def splitAtFence : List Char → Option (List Char × List Char)
  | [] => none
  | c :: rest =>
    if isFence (c :: rest) then some ([], rest.drop 2)
    else
      match splitAtFence rest with
      | none => none
      | some (a, b) => some (c :: a, b)

/-- The alternation `(?:csv|html)` followed by the literal colon. -/
def tagRest (s : List Char) : Option (List Char) :=
  match stripLit ("csv:".data) s with
  | some r => some r
  | none => stripLit ("html:".data) s

/-- One attempt of the pattern `r'```(?:csv|html):([^\n]+)\n(.*?)```'`
at the current position: on success, the filename group, the content
group and the rest of the text after the match. -/
def matchAt (s : List Char) : Option (List Char × List Char × List Char) :=
  match stripLit fenceL s with
  | none => none
  | some r1 =>
    match tagRest r1 with
    | none => none
    | some r2 =>
      match takeLine r2 with
      | none => none
      | some (fname, afterNL) =>
        if fname = [] then none
        else
          match splitAtFence afterNL with
          | none => none
          | some (content, rest) => some (fname, content, rest)

/-- The `re.findall` scan, fuelled by the length of the text: try a match
at the current position; on success continue after the match, otherwise
advance one character. -/
def findAllAux : Nat → List Char → List (List Char × List Char)
  | 0, _ => []
  | fuel + 1, s =>
    match matchAt s with
    | some (f, b, rest) => (f, b) :: findAllAux fuel rest
    | none =>
      match s with
      | [] => []
      | _ :: t => findAllAux fuel t

/-- All matches of the fenced-block pattern, in source order. -/
def findAll (s : List Char) : List (List Char × List Char) :=
  findAllAux s.length s

/-- `_extract_code_blocks`: the regex matches, each filename and content
stripped of surrounding whitespace. -/
def extract_code_blocks (text : List Char) : List (List Char × List Char) :=
  (findAll text).map (fun p => (pyStrip p.1, pyStrip p.2))

/-! ## The API conversation driver (`_call_claude_api`)

`_call_claude_api` is embedded in two layers, matching the two loops in
the source.  The nested retry loop (`for retry in range(max_retries)`)
is a function of the outcomes of the individual stream attempts; the
outer tool-use loop (`for iteration in range(max_iterations)`) is a
function of the response returned by each successful API call.  Sleeps
(`time.sleep`) are recorded as the list of slept durations in seconds. -/

/-- One content block of an API response; `_download_artifact` only
distinguishes text blocks (with their text) from everything else. -/
inductive ContentBlock where
  | text (t : List Char)
  | nonText
deriving DecidableEq

/-- An API response as inspected by the driver: its stop reason and its
content blocks. -/
structure Response where
  stop_reason : String
  content : List ContentBlock
deriving DecidableEq

/-- The outcome of one `client.messages.stream` attempt: a final message,
an `anthropic.RateLimitError`, or any other exception (carried as a
description string). -/
inductive AttemptResult where
  | ok (resp : Response)
  | rateLimit
  | otherError (e : String)
deriving DecidableEq

/-- How one pass through the retry loop ends: the streamed response is
obtained, the final rate-limit error is re-raised, or another exception
propagates. -/
inductive CallResult where
  | ok (resp : Response)
  | rateLimited
  | failed (e : String)
deriving DecidableEq

/-- The retry loop body of `_call_claude_api`: `attempts j` is the outcome
of the attempt with loop index `j`; `remaining` is how many loop indices
are left (`max_retries - retry`).  The returned list is the sequence of
`time.sleep` durations, in order.  On success the loop breaks; on
`RateLimitError` it sleeps `60 * 2 ** retry` seconds if `retry <
max_retries - 1` and otherwise re-raises; any other exception
propagates at once. -/
def retryLoop (attempts : Nat → AttemptResult) (max_retries : Nat) :
    Nat → Nat → CallResult × List Nat
  | _, 0 => (CallResult.rateLimited, [])
  | retry, r + 1 =>
    match attempts retry with
    | AttemptResult.ok resp => (CallResult.ok resp, [])
    | AttemptResult.otherError e => (CallResult.failed e, [])
    | AttemptResult.rateLimit =>
      if retry < max_retries - 1 then
        let p := retryLoop attempts max_retries (retry + 1) r
        (p.1, 60 * 2 ^ retry :: p.2)
      else (CallResult.rateLimited, [])

/-- One full pass of the nested retry loop with the source's
`max_retries = 5`, starting at `retry = 0`. -/
def callWithRetries (attempts : Nat → AttemptResult) : CallResult × List Nat :=
  retryLoop attempts 5 0 5

/-- The content of a conversation message: the plain strings the driver
appends, or the content blocks of an assistant response. -/
inductive MsgContent where
  | ofStr (s : List Char)
  | ofBlocks (bs : List ContentBlock)
deriving DecidableEq

/-- One entry of the `messages` list. -/
structure Message where
  role : String
  content : MsgContent
deriving DecidableEq

/-- The synthetic continuation prompt the driver appends after a
tool-use turn. -/
def continuationText : List Char :=
  ("Please provide the complete schedules based on your search results.").data

/-- The assistant message appended after a tool-use response. -/
def asstMsg (c : List ContentBlock) : Message :=
  { role := "assistant", content := MsgContent.ofBlocks c }

/-- The synthetic user message appended after a tool-use response. -/
def contMsg : Message :=
  { role := "user", content := MsgContent.ofStr continuationText }

/-- The initial user message holding the prompt. -/
def userMsg (prompt : List Char) : Message :=
  { role := "user", content := MsgContent.ofStr prompt }

/-- The tool-use loop of `_call_claude_api`, for runs in which every API
call eventually succeeds: `api it` is the response of the call made in
iteration `it`, `remaining` is `max_iterations` minus the iterations
already used, `msgs` is the conversation so far and `last` the response
of the previous iteration.  Returns the response the function returns,
the final conversation, and the number of API calls made.  A stop
reason of `end_turn` or `max_tokens` returns the response; `tool_use`
appends the assistant turn and the synthetic user turn and continues;
any other stop reason returns the response; an exhausted loop returns
the last response obtained. -/
def driverAux (api : Nat → Response) :
    Nat → Nat → List Message → Response → Response × List Message × Nat
  | 0, _, msgs, last => (last, msgs, 0)
  | r + 1, it, msgs, _ =>
    let response := api it
    if response.stop_reason = "end_turn" ∨ response.stop_reason = "max_tokens" then
      (response, msgs, 1)
    else if response.stop_reason = "tool_use" then
      let rec_ := driverAux api r (it + 1)
        (msgs ++ [asstMsg response.content, contMsg]) response
      (rec_.1, rec_.2.1, rec_.2.2 + 1)
    else (response, msgs, 1)

/-- A placeholder for the (never read) initial value of the local
variable `response`. -/
def dummyResponse : Response := { stop_reason := "", content := [] }

/-- `_call_claude_api`: conversation initialised with the prompt, tool-use
loop with the source's `max_iterations = 25`. -/
def call_claude_api (api : Nat → Response) (prompt : List Char) :
    Response × List Message × Nat :=
  driverAux api 25 0 [userMsg prompt] dummyResponse

/-- The pair of messages appended per tool-use turn, for turns
`it, it+1, ..., it+n-1`. -/
def toolTrail (api : Nat → Response) (it : Nat) : Nat → List Message
  | 0 => []
  | n + 1 => asstMsg (api it).content :: contMsg :: toolTrail api (it + 1) n

/-! ## The artifact writer (`_download_artifact`)

File-system effects are embedded as an explicit trace of events, in the
order the source performs them. -/

/-- A file-system event of `_download_artifact`: writing the combined raw
response text to the timestamped inspection file in the temp directory,
running the block extraction, or writing one extracted file into the
output directory (the destination path is `output_dir / filename` with
the filename exactly as extracted). -/
inductive FileEvent where
  | writeInspection (content : List Char)
  | extractAttempt (content : List Char)
  | writeOutput (filename content : List Char)
deriving DecidableEq

/-- The texts of the text blocks of a response (`all_text`). -/
def textsOf (message : Response) : List (List Char) :=
  message.content.filterMap
    (fun b => match b with
      | ContentBlock.text t => some t
      | ContentBlock.nonText => none)

/-- Python `'\n\n'.join`. -/
def joinTexts : List (List Char) → List Char
  | [] => []
  | [t] => t
  | t :: rest => t ++ '\n' :: '\n' :: joinTexts rest

/-- The combined raw text of a response (`combined_text`). -/
def combinedOf (message : Response) : List Char :=
  joinTexts (textsOf message)

/-- `_download_artifact`: collect the text blocks; if there are none,
return 0 saved files at once; otherwise persist the combined text to the
inspection file, extract the code blocks, and write each extracted
(filename, content) pair to the output directory unchanged.  Returns the
number of files saved together with the event trace. -/
def download_artifact (message : Response) : Nat × List FileEvent :=
  if (textsOf message).isEmpty then (0, [])
  else
    let combined := combinedOf message
    let files := extract_code_blocks combined
    if files.isEmpty then
      (0, [FileEvent.writeInspection combined, FileEvent.extractAttempt combined])
    else
      (files.length,
        FileEvent.writeInspection combined :: FileEvent.extractAttempt combined ::
          files.map (fun p => FileEvent.writeOutput p.1 p.2))

/-! ## The HTML renderer (html_generator.py)

A CSV row is a `csv.DictReader` row: an association list from field name
to value; `rowGet` is Python `dict.get(key, '')`.  The file system is a
partial map from filename to file content. -/

/-- A parsed CSV row (`csv.DictReader` dictionary). -/
abbrev Row := List (List Char × List Char)

/-- Python `game.get(key, '')`. -/
def rowGet (game : Row) (key : List Char) : List Char :=
  match game.lookup key with
  | some v => v
  | none => []

/-- A row with the nine schedule fields, in header order. -/
def mkGame (date day opp loc venue time ev watch result : List Char) : Row :=
  [(("Date").data, date), (("Day").data, day), (("Opponent").data, opp),
   (("Location").data, loc), (("Venue").data, venue), (("Time").data, time),
   (("Event").data, ev), (("Watch").data, watch), (("Result").data, result)]

/-- The local variable `result` of `format_game_row`. -/
def result_of (game : Row) : List Char := pyStrip (rowGet game (("Result").data))

/-- The local variable `row_class` of `format_game_row`. -/
def row_class (game : Row) : List Char :=
  if result_of game ≠ [] then ("game-completed").data else ("game-upcoming").data

/-- The local variable `location` of `format_game_row`. -/
def location_of (game : Row) : List Char := pyStrip (rowGet game (("Location").data))

/-- The local variable `location_class` of `format_game_row`: exact
(case-insensitive) match on home/lincoln ne, else substring match on the
neutral-site markers, else away. -/
def location_class (game : Row) : List Char :=
  if lowerL (location_of game) = ("home").data ∨
      lowerL (location_of game) = ("lincoln ne").data then
    ("home-game").data
  else if containsL (("neutral").data) (lowerL (location_of game)) ∨
      containsL (("kansas city").data) (lowerL (location_of game)) ∨
      containsL (("sioux falls").data) (lowerL (location_of game)) then
    ("neutral-game").data
  else ("away-game").data

/-- The Event cell of `format_game_row`. -/
def event_cell (game : Row) : List Char :=
  let event := pyStrip (rowGet game (("Event").data))
  if event ≠ [] then
    ("                            <td><span class=\"event-badge\">").data ++
      event ++ ("</span></td>\n").data
  else ("                            <td></td>\n").data

/-- The Watch cell of `format_game_row`. -/
def watch_cell (game : Row) : List Char :=
  let watch := pyStrip (rowGet game (("Watch").data))
  if watch ≠ [] then
    ("                            <td><span class=\"watch-channel\">").data ++
      watch ++ ("</span></td>\n").data
  else ("                            <td></td>\n").data

/-- The local variable `result_html` of `format_game_row`: win and loss
spans for results starting with W or L, the bare result otherwise, and
the upcoming placeholder glyph when the result is empty. -/
def result_html (game : Row) : List Char :=
  if result_of game ≠ [] then
    if startsWithL (("W").data) (result_of game) then
      ("<span class=\"result-win\">").data ++ result_of game ++ ("</span>").data
    else if startsWithL (("L").data) (result_of game) then
      ("<span class=\"result-loss\">").data ++ result_of game ++ ("</span>").data
    else result_of game
  else ("<span class=\"result-upcoming\">—</span>").data

/-- `format_game_row`: one `<tr>` with the completion and location
classes, the nine cells, and the styled result cell. -/
def format_game_row (game : Row) : List Char :=
  ("                        <tr class=\"").data ++ row_class game ++ (" ").data ++
    location_class game ++ ("\">\n").data ++
  ("                            <td>").data ++ rowGet game (("Date").data) ++ ("</td>\n").data ++
  ("                            <td>").data ++ rowGet game (("Day").data) ++ ("</td>\n").data ++
  ("                            <td>").data ++ rowGet game (("Opponent").data) ++ ("</td>\n").data ++
  ("                            <td>").data ++ location_of game ++ ("</td>\n").data ++
  ("                            <td>").data ++ rowGet game (("Venue").data) ++ ("</td>\n").data ++
  ("                            <td>").data ++ rowGet game (("Time").data) ++ ("</td>\n").data ++
  event_cell game ++
  watch_cell game ++
  ("                            <td>").data ++ result_html game ++ ("</td>\n").data ++
  ("                        </tr>\n").data

/-- The `SPORT_EMOJIS` table with Python `dict.get(name, "")`. -/
def sportEmoji (name : List Char) : List Char :=
  if name = ("Football").data then ("🏈").data
  else if name = ("Volleyball").data then ("🏐").data
  else if name = ("Men\x27s Basketball").data then ("🏀").data
  else if name = ("Women\x27s Basketball").data then ("🏀").data
  else if name = ("Softball").data then ("🥎").data
  else if name = ("Baseball").data then ("⚾").data
  else []

/-- The records produced by `csv.reader` over the file content, for the
simple dialect this pipeline writes (no quoted fields; `csv.DictReader`
skips blank lines). -/
def parseRecords (content : List Char) : List (List (List Char)) :=
  (splitOnChar '\n' content).filterMap
    (fun line => if line = [] then none else some (splitOnChar ',' line))

/-- `csv.DictReader`: the first record is the header, every further
record is a row keyed by the header fields. -/
def dictReader (content : List Char) : List Row :=
  match parseRecords content with
  | [] => []
  | header :: dataRows => dataRows.map (fun r => header.zip r)

/-- The file system visible to the renderer: CSV file contents by
filename, `none` when the file does not exist. -/
def FileSys : Type := List Char → Option (List Char)

/-- `read_csv`: an absent file yields the empty row list, a present file
is parsed with `csv.DictReader`. -/
def read_csv (fs : FileSys) (filename : List Char) : List Row :=
  match fs filename with
  | none => []
  | some content => dictReader content
-- placeholderPart interpolation order in the source f-string: ['{sport_name.upper()}', '{emoji}', '{sport_name}']
def placeholderPart0 : List Char :=
  ("        <!-- ").data

def placeholderPart1 : List Char :=
  (" -->
        <section class=\"sport-section\">
            <div class=\"sport-header\">
                <h2>").data

def placeholderPart2 : List Char :=
  (" ").data

def placeholderPart3 : List Char :=
  ("</h2>
            </div>
            <div class=\"note-section\">
                <p><strong>Schedule not yet available</strong></p>
                <p>Check back later for updates</p>
            </div>
        </section>

").data

-- tableHeadPart interpolation order in the source f-string: ['{sport_name.upper()}', '{emoji}', '{sport_name}']
def tableHeadPart0 : List Char :=
  ("        <!-- ").data

def tableHeadPart1 : List Char :=
  (" -->
        <section class=\"sport-section\">
            <div class=\"sport-header\">
                <h2>").data

def tableHeadPart2 : List Char :=
  (" ").data

def tableHeadPart3 : List Char :=
  ("</h2>
            </div>
            <div class=\"table-container\">
                <table>
                    <thead>
                        <tr>
                            <th>Date</th>
                            <th>Day</th>
                            <th>Opponent</th>
                            <th>Location</th>
                            <th>Venue</th>
                            <th>Time</th>
                            <th>Event</th>
                            <th>Watch</th>
                            <th>Result</th>
                        </tr>
                    </thead>
                    <tbody>
").data

-- tableTailPart interpolation order in the source f-string: []
def tableTailPart0 : List Char :=
  ("                    </tbody>
                </table>
            </div>
        </section>

").data

-- htmlHeadPart interpolation order in the source f-string: ['{year}', '{int(year)+1}', '{year}', '{int(year)+1}', '{last_updated}']
def htmlHeadPart0 : List Char :=
  ("<!DOCTYPE html>
<html lang=\"en\">
<head>
    <meta charset=\"UTF-8\">
    <meta name=\"viewport\" content=\"width=device-width, initial-scale=1.0\">
    <title>Nebraska Cornhuskers Sports Schedules | ").data

def htmlHeadPart1 : List Char :=
  ("-").data

def htmlHeadPart2 : List Char :=
  ("</title>
    <style>
        * \x7b
            margin: 0;
            padding: 0;
            box-sizing: border-box;
        \x7d

        body \x7b
            font-family: -apple-system, BlinkMacSystemFont, 'Segoe UI',
                         Roboto, 'Helvetica Neue', Arial, sans-serif;
            background-color: #f5f5f5;
            color: #333;
            line-height: 1.6;
        \x7d

        .header \x7b
            background: linear-gradient(135deg, #D00000 0%, #8B0000 100%);
            color: #FEFDFA;
            padding: 2rem 1rem;
            text-align: center;
            box-shadow: 0 2px 10px rgba(0,0,0,0.1);
        \x7d

        .header h1 \x7b
            font-size: 2.5rem;
            font-weight: 700;
            margin-bottom: 0.5rem;
            text-transform: uppercase;
            letter-spacing: 1px;
        \x7d

        .header p \x7b
            font-size: 1.1rem;
            opacity: 0.95;
        \x7d

        .container \x7b
            max-width: 1400px;
            margin: 0 auto;
            padding: 2rem 1rem;
        \x7d

        .sport-section \x7b
            background: white;
            margin-bottom: 3rem;
            border-radius: 8px;
            box-shadow: 0 2px 8px rgba(0,0,0,0.1);
            overflow: hidden;
        \x7d

        .sport-header \x7b
            background-color: #D00000;
            color: #FEFDFA;
            padding: 1.5rem;
            border-bottom: 4px solid #8B0000;
        \x7d

        .sport-header h2 \x7b
            font-size: 1.8rem;
            font-weight: 700;
            text-transform: uppercase;
            letter-spacing: 0.5px;
        \x7d

        .table-container \x7b
            overflow-x: auto;
            padding: 1rem;
        \x7d

        table \x7b
            width: 100%;
            border-collapse: collapse;
            font-size: 0.95rem;
        \x7d

        thead \x7b
            background-color: #FEFDFA;
            border-bottom: 2px solid #D00000;
        \x7d

        th \x7b
            padding: 1rem 0.75rem;
            text-align: left;
            font-weight: 700;
            color: #D00000;
            text-transform: uppercase;
            font-size: 0.85rem;
            letter-spacing: 0.5px;
            white-space: nowrap;
        \x7d

        td \x7b
            padding: 0.9rem 0.75rem;
            border-bottom: 1px solid #e0e0e0;
        \x7d

        tbody tr \x7b
            transition: background-color 0.2s;
        \x7d

        tbody tr:hover \x7b
            background-color: #f9f9f9;
        \x7d

        .game-completed \x7b
            background-color: #f8f8f8;
        \x7d

        .game-upcoming \x7b
            background-color: white;
            font-weight: 500;
        \x7d

        .result-win \x7b
            color: #28a745;
            font-weight: 700;
        \x7d

        .result-loss \x7b
            color: #dc3545;
            font-weight: 700;
        \x7d

        .result-upcoming \x7b
            color: #6c757d;
            font-style: italic;
        \x7d

        .home-game \x7b
            border-left: 4px solid #D00000;
        \x7d

        .away-game \x7b
            border-left: 4px solid #666;
        \x7d

        .neutral-game \x7b
            border-left: 4px solid #0066cc;
        \x7d

        .watch-channel \x7b
            background-color: #D00000;
            color: white;
            padding: 0.25rem 0.5rem;
            border-radius: 4px;
            font-size: 0.85rem;
            font-weight: 600;
            display: inline-block;
        \x7d

        .event-badge \x7b
            background-color: #FEFDFA;
            color: #D00000;
            border: 1px solid #D00000;
            padding: 0.25rem 0.5rem;
            border-radius: 4px;
            font-size: 0.8rem;
            font-weight: 600;
            display: inline-block;
        \x7d

        .note-section \x7b
            padding: 1rem 1.5rem;
            background-color: #fff3cd;
            border-left: 4px solid #ffc107;
            margin: 1rem;
            border-radius: 4px;
        \x7d

        .note-section p \x7b
            color: #856404;
            margin: 0.25rem 0;
        \x7d

        .footer \x7b
            text-align: center;
            padding: 2rem 1rem;
            color: #666;
            font-size: 0.9rem;
        \x7d

        .last-updated \x7b
            background-color: #D00000;
            color: #FEFDFA;
            padding: 0.5rem 1rem;
            text-align: center;
            font-size: 0.9rem;
        \x7d

        @media (max-width: 768px) \x7b
            .header h1 \x7b
                font-size: 1.8rem;
            \x7d

            .sport-header h2 \x7b
                font-size: 1.4rem;
            \x7d

            table \x7b
                font-size: 0.85rem;
            \x7d

            th, td \x7b
                padding: 0.6rem 0.4rem;
            \x7d

            th \x7b
                font-size: 0.75rem;
            \x7d
        \x7d

        @media (max-width: 480px) \x7b
            .header h1 \x7b
                font-size: 1.5rem;
            \x7d

            .container \x7b
                padding: 1rem 0.5rem;
            \x7d

            .table-container \x7b
                padding: 0.5rem;
            \x7d
        \x7d
    </style>
</head>
<body>
    <div class=\"header\">
        <h1>🌽 Nebraska Cornhuskers</h1>
        <p>Complete Sports Schedules | ").data

def htmlHeadPart3 : List Char :=
  ("-").data

def htmlHeadPart4 : List Char :=
  (" Season</p>
    </div>

    <div class=\"last-updated\">
        Last Updated: ").data

def htmlHeadPart5 : List Char :=
  ("
    </div>

    <div class=\"container\">
").data

-- htmlFooterPart interpolation order in the source f-string: []
def htmlFooterPart0 : List Char :=
  ("    </div>

    <div class=\"footer\">
        <p><strong>Go Big Red!</strong></p>
        <p>For official updates, visit <strong>huskers.com</strong></p>
        <p>&copy; 2025 Nebraska Cornhuskers Athletics</p>
    </div>
</body>
</html>
").data


/-- The placeholder section returned by `generate_sport_section` when a
sport has no games: the "Schedule not yet available" notice. -/
def placeholderSection (sport_name : List Char) : List Char :=
  placeholderPart0 ++ upperL sport_name ++ placeholderPart1 ++
    sportEmoji sport_name ++ placeholderPart2 ++ sport_name ++ placeholderPart3

/-- `generate_sport_section`: read the sport's CSV; with no games, the
placeholder section; otherwise the table section with one formatted row
per game. -/
def generate_sport_section (fs : FileSys) (sport_name filename : List Char) :
    List Char :=
  let games := read_csv fs filename
  if games = [] then placeholderSection sport_name
  else
    tableHeadPart0 ++ upperL sport_name ++ tableHeadPart1 ++
      sportEmoji sport_name ++ tableHeadPart2 ++ sport_name ++ tableHeadPart3 ++
      (games.map format_game_row).flatten ++ tableTailPart0

/-- One configured sport (an entry of `sports_config`). -/
structure Sport where
  name : List Char
  filename : List Char
deriving DecidableEq

/-- The `for sport in sports_config` loop of `generate_html`: the sport
sections concatenated in configuration order. -/
def sportsSections (fs : FileSys) : List Sport → List Char
  | [] => []
  | s :: rest => generate_sport_section fs s.name s.filename ++ sportsSections fs rest

/-- `generate_html`: document head (with the generation year and the
last-updated banner), the sport sections, and the footer.  The clock is
abstracted to the formatted values the source computes from it: the
four-digit year as a number and the `last_updated` banner text. -/
def generate_html (fs : FileSys) (sports : List Sport)
    (last_updated : List Char) (year : Nat) : List Char :=
  htmlHeadPart0 ++ (Nat.repr year).data ++ htmlHeadPart1 ++
    (Nat.repr (year + 1)).data ++ htmlHeadPart2 ++ (Nat.repr year).data ++
    htmlHeadPart3 ++ (Nat.repr (year + 1)).data ++ htmlHeadPart4 ++
    last_updated ++ htmlHeadPart5 ++ sportsSections fs sports ++ htmlFooterPart0

/-! ## Properties of the retry loop -/

/-- How the retry loop ends when the decisive attempt has the given
outcome. -/
def resOf : AttemptResult → CallResult
  | AttemptResult.ok resp => CallResult.ok resp
  | AttemptResult.rateLimit => CallResult.rateLimited
  | AttemptResult.otherError e => CallResult.failed e

/-- If the first `k` attempts are rate-limited and attempt `k` is not,
the retry loop returns the outcome of attempt `k` after sleeping
`60 * 2 ^ i` seconds for each rate-limited attempt `i`. -/
theorem retry_master (attempts : Nat → AttemptResult) :
    ∀ (k j r : Nat), j + r = 5 → k < r →
    (∀ i, i < k → attempts (j + i) = AttemptResult.rateLimit) →
    attempts (j + k) ≠ AttemptResult.rateLimit →
    retryLoop attempts 5 j r =
      (resOf (attempts (j + k)), (List.range k).map (fun i => 60 * 2 ^ (j + i))) := by
  intro k
  induction k with
  | zero =>
    intro j r hjr hkr h3 h4
    obtain ⟨rr, rfl⟩ : ∃ rr, r = rr + 1 := ⟨r - 1, by omega⟩
    simp only [Nat.add_zero] at h4 ⊢
    cases hA : attempts j with
    | ok resp => simp [retryLoop, hA, resOf]
    | rateLimit => exact absurd hA h4
    | otherError e => simp [retryLoop, hA, resOf]
  | succ k ih =>
    intro j r hjr hkr h3 h4
    obtain ⟨rr, rfl⟩ : ∃ rr, r = rr + 1 := ⟨r - 1, by omega⟩
    have hA : attempts j = AttemptResult.rateLimit := by
      have h0 := h3 0 (by omega)
      simpa using h0
    have hguard : j < 5 - 1 := by omega
    have hrec := ih (j + 1) rr (by omega) (by omega)
      (fun i hi => by
        have hh := h3 (i + 1) (by omega)
        rwa [show j + (i + 1) = j + 1 + i by omega] at hh)
      (by rwa [show j + (k + 1) = j + 1 + k by omega] at h4)
    simp only [retryLoop, hA, if_pos hguard, hrec]
    refine Prod.ext ?_ ?_
    · simp only [show j + 1 + k = j + (k + 1) by omega]
    · show 60 * 2 ^ j :: (List.range k).map (fun i => 60 * 2 ^ (j + 1 + i)) =
        (List.range (k + 1)).map (fun i => 60 * 2 ^ (j + i))
      rw [List.range_succ_eq_map, List.map_cons, List.map_map]
      refine congrArg₂ _ (by simp) ?_
      refine List.map_congr_left (fun a _ => ?_)
      simp only [Function.comp_apply, Nat.succ_eq_add_one]
      rw [show j + (a + 1) = j + 1 + a by omega]

/-- C2: inside one API call, consecutive rate-limit rejections make the
nested retry sub-loop sleep exactly 60, 120, 240, 480 seconds (that is,
`60 * 2 ^ retry` before attempt `retry + 1`); a fifth rate-limit
rejection is re-raised with no further retry; and any other failure
propagates immediately, with no retry beyond the attempts already
forced by earlier rate limits. -/
theorem claim_C2 (attempts : Nat → AttemptResult) :
    (∀ k, k < 5 → (∀ i, i < k → attempts i = AttemptResult.rateLimit) →
      (∀ resp, attempts k = AttemptResult.ok resp →
        callWithRetries attempts =
          (CallResult.ok resp, (List.range k).map (fun i => 60 * 2 ^ i))) ∧
      (∀ e, attempts k = AttemptResult.otherError e →
        callWithRetries attempts =
          (CallResult.failed e, (List.range k).map (fun i => 60 * 2 ^ i)))) ∧
    ((∀ i, i < 5 → attempts i = AttemptResult.rateLimit) →
      callWithRetries attempts = (CallResult.rateLimited, [60, 120, 240, 480])) := by
  constructor
  · intro k hk h3
    have key : ∀ h4 : attempts k ≠ AttemptResult.rateLimit,
        callWithRetries attempts =
          (resOf (attempts k), (List.range k).map (fun i => 60 * 2 ^ i)) := by
      intro h4
      have h := retry_master attempts k 0 5 (by omega) hk
        (fun i hi => by simpa using h3 i hi) (by simpa using h4)
      simpa using h
    constructor
    · intro resp hresp
      have h := key (by simp [hresp])
      rw [h, hresp, resOf]
    · intro e he
      have h := key (by simp [he])
      rw [h, he, resOf]
  · intro hall
    have h0 := hall 0 (by omega)
    have h1 := hall 1 (by omega)
    have h2 := hall 2 (by omega)
    have h3 := hall 3 (by omega)
    have h4 := hall 4 (by omega)
    simp [callWithRetries, retryLoop, h0, h1, h2, h3, h4]

/-- Witness for C2: two rate limits followed by a non-rate-limit failure
yield sleeps of 60 and 120 seconds and propagate the failure. -/
theorem claim_C2_witness :
    callWithRetries
        (fun i => if i < 2 then AttemptResult.rateLimit
          else AttemptResult.otherError "api down") =
      (CallResult.failed "api down", [60, 120]) := by
  have h := ((claim_C2 (fun i => if i < 2 then AttemptResult.rateLimit
      else AttemptResult.otherError "api down")).1 2 (by omega)
    (fun i hi => by interval_cases i <;> rfl)).2 "api down" (by rfl)
  rw [h]
  rfl

/-! ## Properties of the tool-use loop -/

/-- Each tool-use turn contributes exactly two messages. -/
theorem toolTrail_length (api : Nat → Response) :
    ∀ (it n : Nat), (toolTrail api it n).length = 2 * n := by
  intro it n
  induction n generalizing it with
  | zero => rfl
  | succ n ih => simp [toolTrail, ih]; omega

/-- The loop makes at most `remaining` API calls. -/
theorem driver_calls_le (api : Nat → Response) :
    ∀ (r it : Nat) (msgs : List Message) (last : Response),
      (driverAux api r it msgs last).2.2 ≤ r := by
  intro r
  induction r with
  | zero => intro it msgs last; simp [driverAux]
  | succ r ih =>
    intro it msgs last
    simp only [driverAux]
    split
    · simp
    · split
      · simpa using Nat.succ_le_succ (ih (it + 1) _ (api it))
      · simp

/-- If every response in the window is a tool-use response, the loop
exhausts its iterations, returning the last response obtained and a
conversation extended by two messages per turn. -/
theorem driver_exhaust (api : Nat → Response) :
    ∀ (r it : Nat) (msgs : List Message) (last : Response), 0 < r →
      (∀ j, j < r → (api (it + j)).stop_reason = "tool_use") →
      driverAux api r it msgs last =
        (api (it + (r - 1)), msgs ++ toolTrail api it r, r) := by
  intro r
  induction r with
  | zero => intro it msgs last h; omega
  | succ r ih =>
    intro it msgs last _ htool
    have h0 : (api it).stop_reason = "tool_use" := by
      simpa using htool 0 (by omega)
    have hne1 : ¬((api it).stop_reason = "end_turn" ∨
        (api it).stop_reason = "max_tokens") := by
      rw [h0]; decide
    simp only [driverAux, if_neg hne1, if_pos h0]
    cases r with
    | zero =>
      simp [driverAux, toolTrail]
    | succ rr =>
      have hrec := ih (it + 1) (msgs ++ [asstMsg (api it).content, contMsg]) (api it)
        (by omega)
        (fun j hj => by
          have hh := htool (j + 1) (by omega)
          rwa [show it + (j + 1) = it + 1 + j by omega] at hh)
      rw [hrec]
      simp only [toolTrail, List.append_assoc]
      refine Prod.ext ?_ (Prod.ext ?_ rfl)
      · simp only [show it + 1 + (rr + 1 - 1) = it + (rr + 1 + 1 - 1) by omega]
      · simp

/-- If the first `k` responses are tool-use responses and response `k`
is terminal (any non-tool-use stop reason), the loop returns response
`k` after `k + 1` calls, the conversation extended by two messages per
tool-use turn. -/
theorem driver_term (api : Nat → Response) :
    ∀ (k r it : Nat) (msgs : List Message) (last : Response), k < r →
      (∀ j, j < k → (api (it + j)).stop_reason = "tool_use") →
      (api (it + k)).stop_reason ≠ "tool_use" →
      driverAux api r it msgs last =
        (api (it + k), msgs ++ toolTrail api it k, k + 1) := by
  intro k
  induction k with
  | zero =>
    intro r it msgs last hkr _ hterm
    obtain ⟨rr, rfl⟩ : ∃ rr, r = rr + 1 := ⟨r - 1, by omega⟩
    simp only [Nat.add_zero] at hterm
    simp only [driverAux, toolTrail, List.append_nil]
    split <;> simp [hterm]
  | succ k ih =>
    intro r it msgs last hkr htool hterm
    obtain ⟨rr, rfl⟩ : ∃ rr, r = rr + 1 := ⟨r - 1, by omega⟩
    have h0 : (api it).stop_reason = "tool_use" := by
      simpa using htool 0 (by omega)
    have hne1 : ¬((api it).stop_reason = "end_turn" ∨
        (api it).stop_reason = "max_tokens") := by
      rw [h0]; decide
    have hrec := ih rr (it + 1) (msgs ++ [asstMsg (api it).content, contMsg]) (api it)
      (by omega)
      (fun j hj => by
        have hh := htool (j + 1) (by omega)
        rwa [show it + (j + 1) = it + 1 + j by omega] at hh)
      (by rwa [show it + (k + 1) = it + 1 + k by omega] at hterm)
    simp only [driverAux, if_neg hne1, if_pos h0, hrec]
    simp only [toolTrail, List.append_assoc]
    refine Prod.ext ?_ (Prod.ext ?_ rfl)
    · simp only [show it + 1 + k = it + (k + 1) by omega]
    · simp

/-- C1: whenever a response's stop reason is tool use, the driver
appends exactly one assistant entry (the response content) and one
synthetic user entry and re-issues the call; this repeats until a
terminal stop reason or the iteration ceiling of 25, the number of API
calls never exceeds 25, and after `k` tool-use turns the conversation
holds exactly `1 + 2 * k` messages. -/
theorem claim_C1 (api : Nat → Response) (prompt : List Char) :
    (call_claude_api api prompt).2.2 ≤ 25 ∧
    ∀ k, (∀ j, j < k → (api j).stop_reason = "tool_use") →
      ((k < 25 → (api k).stop_reason ≠ "tool_use" →
        (call_claude_api api prompt).2.1 = userMsg prompt :: toolTrail api 0 k ∧
        (call_claude_api api prompt).2.1.length = 1 + 2 * k) ∧
      (k = 25 →
        (call_claude_api api prompt).2.1 = userMsg prompt :: toolTrail api 0 25 ∧
        (call_claude_api api prompt).2.1.length = 1 + 2 * 25)) := by
  constructor
  · exact driver_calls_le api 25 0 [userMsg prompt] dummyResponse
  · intro k htool
    constructor
    · intro hk hterm
      have h := driver_term api k 25 0 [userMsg prompt] dummyResponse hk
        (fun j hj => by simpa using htool j hj) (by simpa using hterm)
      unfold call_claude_api
      rw [h]
      simp [toolTrail_length]
      omega
    · intro hk
      subst hk
      have h := driver_exhaust api 25 0 [userMsg prompt] dummyResponse (by omega)
        (fun j hj => by simpa using htool j hj)
      unfold call_claude_api
      rw [h]
      simp [toolTrail_length]

/-- Witness for C1: three tool-use turns then a terminal turn leave a
conversation of `1 + 2 * 3` messages. -/
theorem claim_C1_witness :
    (call_claude_api
        (fun i => if i < 3 then { stop_reason := "tool_use", content := [ContentBlock.nonText] }
          else { stop_reason := "end_turn", content := [ContentBlock.text (("done").data)] })
        (("find the schedules").data)).2.1.length = 1 + 2 * 3 := by
  exact (((claim_C1
      (fun i => if i < 3 then { stop_reason := "tool_use", content := [ContentBlock.nonText] }
        else { stop_reason := "end_turn", content := [ContentBlock.text (("done").data)] })
      (("find the schedules").data)).2 3
    (fun j hj => by interval_cases j <;> rfl)).1 (by omega) (by decide)).2

/-- C3: an exhausted iteration ceiling (every response a tool-use
response) makes the driver return the last response obtained, not
raise; a stop reason of `end_turn` or `max_tokens` returns that
response at once; and any other stop reason returns the response as
well. -/
theorem claim_C3 (api : Nat → Response) (prompt : List Char) (k : Nat)
    (htool : ∀ j, j < k → (api j).stop_reason = "tool_use") :
    (k = 25 → (call_claude_api api prompt).1 = api 24) ∧
    (k < 25 →
      ((api k).stop_reason = "end_turn" ∨ (api k).stop_reason = "max_tokens") →
      (call_claude_api api prompt).1 = api k) ∧
    (k < 25 → (api k).stop_reason ≠ "tool_use" →
      (call_claude_api api prompt).1 = api k) := by
  have term : k < 25 → (api k).stop_reason ≠ "tool_use" →
      (call_claude_api api prompt).1 = api k := by
    intro hk hterm
    have h := driver_term api k 25 0 [userMsg prompt] dummyResponse hk
      (fun j hj => by simpa using htool j hj) (by simpa using hterm)
    unfold call_claude_api
    rw [h]
    simp
  refine ⟨?_, ?_, term⟩
  · intro hk
    subst hk
    have h := driver_exhaust api 25 0 [userMsg prompt] dummyResponse (by omega)
      (fun j hj => by simpa using htool j hj)
    unfold call_claude_api
    rw [h]
  · intro hk hstop
    refine term hk ?_
    rcases hstop with h | h <;> rw [h] <;> decide

/-- Witness for C3: twenty-five consecutive tool-use responses exhaust
the ceiling and the driver returns the twenty-fifth response. -/
theorem claim_C3_witness :
    (call_claude_api (fun _ => { stop_reason := "tool_use", content := [] })
        (("prompt").data)).1 =
      { stop_reason := "tool_use", content := [] } := by
  have h := (claim_C3 (fun _ => { stop_reason := "tool_use", content := [] })
    (("prompt").data) 25 (fun j _ => rfl)).1 rfl
  rw [h]

/-! ## Properties of the fenced-block extractor -/

theorem stripLit_length :
    ∀ (p s r : List Char), stripLit p s = some r → r.length + p.length = s.length := by
  intro p
  induction p with
  | nil =>
    intro s r h
    simp only [stripLit, Option.some.injEq] at h
    subst h
    simp
  | cons a ps ih =>
    intro s r h
    cases s with
    | nil => simp [stripLit] at h
    | cons c cs =>
      simp only [stripLit] at h
      by_cases hac : a = c
      · rw [if_pos hac] at h
        have hl := ih cs r h
        simp only [List.length_cons]
        omega
      · rw [if_neg hac] at h
        cases h

theorem takeLine_length :
    ∀ (s a b : List Char), takeLine s = some (a, b) → b.length < s.length := by
  intro s
  induction s with
  | nil => intro a b h; cases h
  | cons c cs ih =>
    intro a b h
    simp only [takeLine] at h
    by_cases hc : c = '\n'
    · rw [if_pos hc] at h
      simp only [Option.some.injEq, Prod.mk.injEq] at h
      obtain ⟨-, rfl⟩ := h
      simp
    · rw [if_neg hc] at h
      cases ht : takeLine cs with
      | none => rw [ht] at h; cases h
      | some p =>
        obtain ⟨x, y⟩ := p
        rw [ht] at h
        simp only [Option.some.injEq, Prod.mk.injEq] at h
        obtain ⟨-, rfl⟩ := h
        have := ih x y ht
        simp only [List.length_cons]
        omega

theorem splitAtFence_length :
    ∀ (s a b : List Char), splitAtFence s = some (a, b) → b.length < s.length := by
  intro s
  induction s with
  | nil => intro a b h; cases h
  | cons c cs ih =>
    intro a b h
    simp only [splitAtFence] at h
    by_cases hf : isFence (c :: cs) = true
    · rw [if_pos hf] at h
      simp only [Option.some.injEq, Prod.mk.injEq] at h
      obtain ⟨-, rfl⟩ := h
      have : (cs.drop 2).length ≤ cs.length := by
        rw [List.length_drop]
        omega
      simp only [List.length_cons]
      omega
    · rw [if_neg hf] at h
      cases ht : splitAtFence cs with
      | none => rw [ht] at h; cases h
      | some p =>
        obtain ⟨x, y⟩ := p
        rw [ht] at h
        simp only [Option.some.injEq, Prod.mk.injEq] at h
        obtain ⟨-, rfl⟩ := h
        have := ih x y ht
        simp only [List.length_cons]
        omega

theorem tagRest_length :
    ∀ (s r : List Char), tagRest s = some r → r.length < s.length := by
  intro s r h
  simp only [tagRest] at h
  split at h
  · rename_i r1 h1
    simp only [Option.some.injEq] at h
    subst h
    have hl := stripLit_length _ _ _ h1
    have hc : (['c', 's', 'v', ':'] : List Char).length = 4 := rfl
    simp only [show ("csv:").data = ['c', 's', 'v', ':'] from rfl] at hl
    omega
  · rename_i h1
    have hl := stripLit_length _ _ _ h
    have hc : (['h', 't', 'm', 'l', ':'] : List Char).length = 5 := rfl
    simp only [show ("html:").data = ['h', 't', 'm', 'l', ':'] from rfl] at hl
    omega

theorem matchAt_length :
    ∀ (s f b rest : List Char), matchAt s = some (f, b, rest) → rest.length < s.length := by
  intro s f b rest h
  simp only [matchAt] at h
  split at h
  · cases h
  · rename_i r1 h1
    split at h
    · cases h
    · rename_i r2 h2
      split at h
      · cases h
      · rename_i fname afterNL h3
        split at h
        · cases h
        · split at h
          · cases h
          · rename_i content rest2 h5
            simp only [Option.some.injEq, Prod.mk.injEq] at h
            obtain ⟨-, -, rfl⟩ := h
            have l1 := stripLit_length _ _ _ h1
            have l2 := tagRest_length _ _ h2
            have l3 := takeLine_length _ _ _ h3
            have l4 := splitAtFence_length _ _ _ h5
            have l5 : fenceL.length = 3 := rfl
            omega

theorem matchAt_nil : matchAt [] = none := rfl

theorem findAllAux_nil : ∀ fuel, findAllAux fuel [] = [] := by
  intro fuel
  cases fuel <;> rfl

theorem findAllAux_congr :
    ∀ (n : Nat) (s : List Char) (f1 f2 : Nat),
      s.length ≤ n → s.length ≤ f1 → s.length ≤ f2 →
      findAllAux f1 s = findAllAux f2 s := by
  intro n
  induction n with
  | zero =>
    intro s f1 f2 h1 _ _
    have : s = [] := List.eq_nil_of_length_eq_zero (by omega)
    subst this
    rw [findAllAux_nil, findAllAux_nil]
  | succ n ih =>
    intro s f1 f2 h1 h2 h3
    cases s with
    | nil => rw [findAllAux_nil, findAllAux_nil]
    | cons c t =>
      simp only [List.length_cons] at h1 h2 h3
      obtain ⟨a, rfl⟩ : ∃ a, f1 = a + 1 := ⟨f1 - 1, by omega⟩
      obtain ⟨b, rfl⟩ : ∃ b, f2 = b + 1 := ⟨f2 - 1, by omega⟩
      cases hm : matchAt (c :: t) with
      | some p =>
        obtain ⟨f, bb, rest⟩ := p
        have hlen := matchAt_length _ _ _ _ hm
        simp only [List.length_cons] at hlen
        simp only [findAllAux, hm]
        rw [ih rest a b (by omega) (by omega) (by omega)]
      | none =>
        simp only [findAllAux, hm]
        exact ih t a b (by omega) (by omega) (by omega)

theorem findAll_match :
    ∀ (s f b rest : List Char), matchAt s = some (f, b, rest) →
      findAll s = (f, b) :: findAll rest := by
  intro s f b rest h
  cases s with
  | nil => rw [matchAt_nil] at h; cases h
  | cons c t =>
    have hlen := matchAt_length _ _ _ _ h
    simp only [List.length_cons] at hlen
    unfold findAll
    simp only [List.length_cons, findAllAux, h]
    rw [findAllAux_congr rest.length rest t.length rest.length (le_refl _)
      (by omega) (le_refl _)]

theorem findAll_nomatch :
    ∀ (c : Char) (t : List Char), matchAt (c :: t) = none →
      findAll (c :: t) = findAll t := by
  intro c t h
  unfold findAll
  simp only [List.length_cons, findAllAux, h]

theorem matchAt_not_btick :
    ∀ (c : Char) (t : List Char), c ≠ btick → matchAt (c :: t) = none := by
  intro c t h
  have hs : stripLit fenceL (c :: t) = none := by
    simp only [fenceL, stripLit]
    rw [if_neg (fun hh => h hh.symm)]
  simp only [matchAt, hs]

theorem findAll_append_nb :
    ∀ (sep s : List Char), btick ∉ sep → findAll (sep ++ s) = findAll s := by
  intro sep
  induction sep with
  | nil => intro s _; rfl
  | cons c cs ih =>
    intro s h
    have hc : c ≠ btick := fun e => h (e ▸ List.mem_cons_self c cs)
    rw [List.cons_append, findAll_nomatch _ _ (matchAt_not_btick c _ hc),
      ih s (fun m => h (List.mem_cons_of_mem c m))]

theorem findAll_nil_nb : ∀ (s : List Char), btick ∉ s → findAll s = [] := by
  intro s h
  have hh := findAll_append_nb s [] h
  rw [List.append_nil] at hh
  rw [hh]
  rfl

theorem stripLit_self : ∀ (p s : List Char), stripLit p (p ++ s) = some s := by
  intro p
  induction p with
  | nil => intro s; rfl
  | cons a ps ih => intro s; simp [stripLit, ih]

theorem takeLine_append :
    ∀ (f r : List Char), '\n' ∉ f → takeLine (f ++ '\n' :: r) = some (f, r) := by
  intro f
  induction f with
  | nil => intro r _; simp [takeLine]
  | cons c cs ih =>
    intro r h
    have hc : ¬(c = '\n') := fun e => h (e ▸ List.mem_cons_self c cs)
    have hcs : '\n' ∉ cs := fun m => h (List.mem_cons_of_mem c m)
    simp [takeLine, if_neg hc, ih r hcs]

/-- No three-backtick fence starts strictly inside `b ++ fenceL`: the
first closing fence after the block body is exactly the one the block
ends with.  This is what "the body is all text up to the matching
closing fence" means for the lazy group. -/
def fenceFree (b : List Char) : Prop :=
  ∀ i, i < b.length → isFence (b.drop i ++ fenceL) = false

instance : DecidablePred fenceFree := fun b =>
  Nat.decidableBallLT b.length (fun i _ => isFence (b.drop i ++ fenceL) = false)

theorem isFence_append3 :
    ∀ (y X : List Char), 3 ≤ y.length → isFence (y ++ X) = isFence y := by
  intro y X h
  cases y with
  | nil => simp at h
  | cons a y1 =>
    cases y1 with
    | nil => simp at h
    | cons b y2 =>
      cases y2 with
      | nil => simp at h
      | cons c t => rfl

theorem splitAtFence_exact :
    ∀ (content rest : List Char),
      (∀ i, i < content.length → isFence (content.drop i ++ fenceL) = false) →
      splitAtFence (content ++ (fenceL ++ rest)) = some (content, rest) := by
  intro content
  induction content with
  | nil =>
    intro rest _
    simp only [List.nil_append, fenceL]
    simp [splitAtFence, isFence]
  | cons c cs ih =>
    intro rest hff
    have h0 : isFence ((c :: cs) ++ fenceL) = false := hff 0 (by simp)
    have hIsf : isFence (c :: (cs ++ (fenceL ++ rest))) = false := by
      have h1 : c :: (cs ++ (fenceL ++ rest)) = ((c :: cs) ++ fenceL) ++ rest := by
        simp [List.append_assoc]
      rw [h1, isFence_append3 _ rest (by simp [fenceL])]
      exact h0
    rw [List.cons_append]
    simp only [splitAtFence, hIsf]
    have hrec := ih rest (fun i hi => by
      have hh := hff (i + 1) (by simp; omega)
      simpa using hh)
    simp [hrec]

/-- The text of one well-formed fenced block: opening fence, type tag,
colon, filename line, body, closing fence. -/
def renderBlock (tag fname content : List Char) : List Char :=
  fenceL ++ (tag ++ (':' :: (fname ++ ('\n' :: (content ++ fenceL)))))

theorem matchAt_render :
    ∀ (tag fname content X : List Char),
      (tag = ("csv").data ∨ tag = ("html").data) → fname ≠ [] → '\n' ∉ fname →
      fenceFree content →
      matchAt (renderBlock tag fname content ++ X) = some (fname, content, X) := by
  intro tag fname content X htag hne hnl hff
  have hshape : renderBlock tag fname content ++ X =
      fenceL ++ (tag ++ (':' :: (fname ++ ('\n' :: (content ++ (fenceL ++ X)))))) := by
    simp [renderBlock, List.append_assoc]
  rw [hshape]
  simp only [matchAt, stripLit_self]
  have htr : tagRest (tag ++ (':' :: (fname ++ ('\n' :: (content ++ (fenceL ++ X)))))) =
      some (fname ++ ('\n' :: (content ++ (fenceL ++ X)))) := by
    rcases htag with rfl | rfl
    · have hsh : ("csv").data ++ (':' :: (fname ++ ('\n' :: (content ++ (fenceL ++ X))))) =
          ("csv:").data ++ (fname ++ ('\n' :: (content ++ (fenceL ++ X)))) := rfl
      rw [hsh]
      simp only [tagRest, stripLit_self]
    · have hsh : ("html").data ++ (':' :: (fname ++ ('\n' :: (content ++ (fenceL ++ X))))) =
          ("html:").data ++ (fname ++ ('\n' :: (content ++ (fenceL ++ X)))) := rfl
      rw [hsh]
      have hnone : stripLit (("csv:").data)
          (("html:").data ++ (fname ++ ('\n' :: (content ++ (fenceL ++ X))))) = none := rfl
      simp only [tagRest, hnone, stripLit_self]
  simp only [htr, takeLine_append _ _ hnl, if_neg hne, splitAtFence_exact _ _ hff]

/-- One fenced block of an input text, together with the separator text
that precedes it. -/
structure FencedEntry where
  sep : List Char
  tag : List Char
  fname : List Char
  body : List Char
deriving DecidableEq

/-- A well-formed recognized block: the surrounding text carries no
backtick, the tag is `csv` or `html`, the filename is nonempty and
stays on its line, and the body runs exactly up to its closing fence. -/
def wellFormed (e : FencedEntry) : Prop :=
  btick ∉ e.sep ∧ (e.tag = ("csv").data ∨ e.tag = ("html").data) ∧
    e.fname ≠ [] ∧ '\n' ∉ e.fname ∧ fenceFree e.body

instance : DecidablePred wellFormed := fun e => by
  unfold wellFormed
  infer_instance

/-- A text containing the given fenced blocks in order, each preceded by
its separator text and followed by the final trailing text. -/
def assemble : List FencedEntry → List Char → List Char
  | [], last => last
  | e :: rest, last => e.sep ++ (renderBlock e.tag e.fname e.body ++ assemble rest last)

theorem findAll_assemble :
    ∀ (entries : List FencedEntry) (last : List Char),
      (∀ e ∈ entries, wellFormed e) → btick ∉ last →
      findAll (assemble entries last) = entries.map (fun e => (e.fname, e.body)) := by
  intro entries
  induction entries with
  | nil =>
    intro last _ hlast
    simpa [assemble] using findAll_nil_nb last hlast
  | cons e es ih =>
    intro last hwf hlast
    obtain ⟨hsep, htag, hne, hnl, hff⟩ := hwf e (List.mem_cons_self e es)
    simp only [assemble]
    rw [findAll_append_nb _ _ hsep,
      findAll_match _ _ _ _ (matchAt_render e.tag e.fname e.body (assemble es last) htag hne hnl hff),
      ih last (fun x hx => hwf x (List.mem_cons_of_mem e hx)) hlast,
      List.map_cons]

theorem stripLit_csv_badtag :
    ∀ (tag R : List Char), ':' ∉ tag → tag ≠ ("csv").data →
      stripLit (("csv:").data) (tag ++ ':' :: R) = none := by
  intro tag R hcolon hne
  match tag with
  | [] => simp [stripLit]
  | [a] => simp [stripLit, ite_self]
  | [a, b] => simp [stripLit, ite_self]
  | [a, b, c] =>
    by_cases ha : 'c' = a
    · by_cases hb : 's' = b
      · by_cases hc : 'v' = c
        · exact absurd (by rw [← ha, ← hb, ← hc]) hne
        · simp [stripLit, ha, hb, hc]
      · simp [stripLit, ha, hb]
    · simp [stripLit, ha]
  | a :: b :: c :: d :: t =>
    by_cases hd : d = ':'
    · subst hd
      exact absurd (by simp) hcolon
    · simp [stripLit]
      exact fun _ _ _ h => hd h.symm

theorem stripLit_html_badtag :
    ∀ (tag R : List Char), ':' ∉ tag → tag ≠ ("html").data →
      stripLit (("html:").data) (tag ++ ':' :: R) = none := by
  intro tag R hcolon hne
  match tag with
  | [] => simp [stripLit]
  | [a] => simp [stripLit, ite_self]
  | [a, b] => simp [stripLit, ite_self]
  | [a, b, c] => simp [stripLit, ite_self]
  | [a, b, c, d] =>
    by_cases ha : 'h' = a
    · by_cases hb : 't' = b
      · by_cases hc : 'm' = c
        · by_cases hd : 'l' = d
          · exact absurd (by rw [← ha, ← hb, ← hc, ← hd]) hne
          · simp [stripLit, ha, hb, hc, hd]
        · simp [stripLit, ha, hb, hc]
      · simp [stripLit, ha, hb]
    · simp [stripLit, ha]
  | a :: b :: c :: d :: e :: t =>
    by_cases he : e = ':'
    · subst he
      exact absurd (by simp) hcolon
    · simp [stripLit]
      exact fun _ _ _ _ h => he h.symm

theorem tagRest_badtag :
    ∀ (tag R : List Char), ':' ∉ tag → tag ≠ ("csv").data → tag ≠ ("html").data →
      tagRest (tag ++ ':' :: R) = none := by
  intro tag R hcolon hcsv hhtml
  simp only [tagRest, stripLit_csv_badtag tag R hcolon hcsv,
    stripLit_html_badtag tag R hcolon hhtml]

theorem matchAt_fence_badtag :
    ∀ (tag R : List Char), ':' ∉ tag → tag ≠ ("csv").data → tag ≠ ("html").data →
      matchAt (fenceL ++ (tag ++ ':' :: R)) = none := by
  intro tag R hcolon hcsv hhtml
  simp only [matchAt, stripLit_self, tagRest_badtag tag R hcolon hcsv hhtml]

theorem matchAt_two_bticks :
    ∀ (R : List Char), (∀ t, R ≠ btick :: t) → matchAt (btick :: btick :: R) = none := by
  intro R h
  have hs : stripLit fenceL (btick :: btick :: R) = none := by
    show stripLit [btick, btick, btick] (btick :: btick :: R) = none
    simp only [stripLit, if_pos rfl]
    cases R with
    | nil => rfl
    | cons c t =>
      have hc : ¬(btick = c) := fun e => h t (by rw [← e])
      simp [stripLit, hc]
  simp only [matchAt, hs]

theorem matchAt_one_btick :
    ∀ (R : List Char), (∀ t, R ≠ btick :: t) → matchAt (btick :: R) = none := by
  intro R h
  have hs : stripLit fenceL (btick :: R) = none := by
    show stripLit [btick, btick, btick] (btick :: R) = none
    simp only [stripLit, if_pos rfl]
    cases R with
    | nil => rfl
    | cons c t =>
      have hc : ¬(btick = c) := fun e => h t (by rw [← e])
      simp [stripLit, hc]
  simp only [matchAt, hs]

theorem tagColon_head :
    ∀ (tag r : List Char), btick ∉ tag → ∀ t, tag ++ ':' :: r ≠ btick :: t := by
  intro tag r hbt t
  cases tag with
  | nil =>
    intro h
    have : ':' = btick := by simpa using congrArg (fun l => l.head?) h
    exact absurd this (by decide)
  | cons a tl =>
    intro h
    have : a = btick := by simpa using congrArg (fun l => l.head?) h
    exact hbt (this ▸ List.mem_cons_self a tl)

theorem findAll_render_other :
    ∀ (tag fname body : List Char),
      tag ≠ ("csv").data → tag ≠ ("html").data → ':' ∉ tag → btick ∉ tag →
      btick ∉ fname → btick ∉ body →
      findAll (renderBlock tag fname body) = [] := by
  intro tag fname body hcsv hhtml hcolon hbt hbf hbb
  have hR : renderBlock tag fname body =
      btick :: btick :: btick :: (tag ++ ':' :: (fname ++ '\n' :: (body ++ fenceL))) := rfl
  rw [hR]
  have hhead := tagColon_head tag (fname ++ '\n' :: (body ++ fenceL)) hbt
  rw [findAll_nomatch _ _ (by
    have := matchAt_fence_badtag tag (fname ++ '\n' :: (body ++ fenceL)) hcolon hcsv hhtml
    simpa [fenceL] using this)]
  rw [findAll_nomatch _ _ (matchAt_two_bticks _ hhead)]
  rw [findAll_nomatch _ _ (matchAt_one_btick _ hhead)]
  rw [findAll_append_nb _ _ hbt]
  rw [findAll_nomatch _ _ (matchAt_not_btick ':' _ (by decide))]
  rw [findAll_append_nb _ _ hbf]
  rw [findAll_nomatch _ _ (matchAt_not_btick '\n' _ (by decide))]
  rw [findAll_append_nb _ _ hbb]
  decide

/-- C4: a text made of well-formed fenced blocks whose opening fences
carry the tag `csv` or `html`, a colon and a filename on one line makes
the extractor return exactly one (filename, content) pair per block, in
source order, each component stripped of surrounding whitespace; a
block with any other type tag is not recognized. -/
theorem claim_C4 :
    (∀ (entries : List FencedEntry) (last : List Char),
      (∀ e ∈ entries, wellFormed e) → btick ∉ last →
      extract_code_blocks (assemble entries last) =
        entries.map (fun e => (pyStrip e.fname, pyStrip e.body)) ∧
      (extract_code_blocks (assemble entries last)).length = entries.length) ∧
    (∀ (tag fname body : List Char),
      tag ≠ ("csv").data → tag ≠ ("html").data → ':' ∉ tag → btick ∉ tag →
      btick ∉ fname → btick ∉ body →
      extract_code_blocks (renderBlock tag fname body) = []) := by
  constructor
  · intro entries last hwf hlast
    have h : extract_code_blocks (assemble entries last) =
        entries.map (fun e => (pyStrip e.fname, pyStrip e.body)) := by
      unfold extract_code_blocks
      rw [findAll_assemble entries last hwf hlast, List.map_map]
      rfl
    exact ⟨h, by rw [h, List.length_map]⟩
  · intro tag fname body hcsv hhtml hcolon hbt hbf hbb
    unfold extract_code_blocks
    rw [findAll_render_other tag fname body hcsv hhtml hcolon hbt hbf hbb]
    rfl

/-- Witness for C4: a two-block response text yields exactly the two
stripped (filename, content) pairs in order. -/
theorem claim_C4_witness :
    extract_code_blocks (assemble
        [{ sep := (" Here are the files:\n").data, tag := ("csv").data,
           fname := (" Football.csv ").data, body := ("Date,Day\n9/1,Sat").data },
         { sep := ("\nand also\n").data, tag := ("html").data,
           fname := ("index.html").data, body := ("<p>hi</p>").data }]
        (("\nDone.").data)) =
      [(("Football.csv").data, ("Date,Day\n9/1,Sat").data),
       (("index.html").data, ("<p>hi</p>").data)] := by
  have h := (claim_C4.1
    [{ sep := (" Here are the files:\n").data, tag := ("csv").data,
       fname := (" Football.csv ").data, body := ("Date,Day\n9/1,Sat").data },
     { sep := ("\nand also\n").data, tag := ("html").data,
       fname := ("index.html").data, body := ("<p>hi</p>").data }]
    (("\nDone.").data) (by decide) (by decide)).1
  rw [h]
  decide

/-- C5: for every response holding assistant text, the combined raw text
is written to the inspection file before block extraction is attempted
(the first two events of the trace, in that order), and when the text
holds no recognized fenced block the step returns zero saved files while
the inspection file has still been written. -/
theorem claim_C5 (message : Response) (h : textsOf message ≠ []) :
    (∃ rest, (download_artifact message).2 =
      FileEvent.writeInspection (combinedOf message) ::
        FileEvent.extractAttempt (combinedOf message) :: rest) ∧
    (extract_code_blocks (combinedOf message) = [] →
      download_artifact message =
        (0, [FileEvent.writeInspection (combinedOf message),
             FileEvent.extractAttempt (combinedOf message)])) := by
  have hne : ¬((textsOf message).isEmpty = true) := by
    simpa [List.isEmpty_iff] using h
  constructor
  · simp only [download_artifact, if_neg hne]
    by_cases hf : (extract_code_blocks (combinedOf message)).isEmpty = true
    · exact ⟨[], by rw [if_pos hf]⟩
    · exact ⟨(extract_code_blocks (combinedOf message)).map
        (fun p => FileEvent.writeOutput p.1 p.2), by rw [if_neg hf]⟩
  · intro hex
    simp only [download_artifact, if_neg hne]
    rw [if_pos (by simp [hex, List.isEmpty_iff])]

/-- Witness for C5: a response whose text holds no fenced block returns
zero files with the inspection write still performed first. -/
theorem claim_C5_witness :
    download_artifact (Response.mk "end_turn"
        [ContentBlock.text (("Sorry, no schedules found.").data)]) =
      (0, [FileEvent.writeInspection (("Sorry, no schedules found.").data),
           FileEvent.extractAttempt (("Sorry, no schedules found.").data)]) := by
  exact (claim_C5 (Response.mk "end_turn"
      [ContentBlock.text (("Sorry, no schedules found.").data)])
    (by decide)).2 (by decide)

/-- C6: every (filename, content) pair the extractor produces is written
to the output directory with the filename exactly as extracted: no pair
is rejected or altered, nothing is compared against the sport's expected
filename, and no path-separator or traversal check is applied. -/
theorem claim_C6 (message : Response) (h1 : textsOf message ≠ [])
    (h2 : extract_code_blocks (combinedOf message) ≠ []) :
    (download_artifact message).1 = (extract_code_blocks (combinedOf message)).length ∧
    (download_artifact message).2 =
      FileEvent.writeInspection (combinedOf message) ::
        FileEvent.extractAttempt (combinedOf message) ::
        (extract_code_blocks (combinedOf message)).map
          (fun p => FileEvent.writeOutput p.1 p.2) ∧
    ∀ f c, (f, c) ∈ extract_code_blocks (combinedOf message) →
      FileEvent.writeOutput f c ∈ (download_artifact message).2 := by
  have hne : ¬((textsOf message).isEmpty = true) := by
    simpa [List.isEmpty_iff] using h1
  have hfe : ¬((extract_code_blocks (combinedOf message)).isEmpty = true) := by
    simpa [List.isEmpty_iff] using h2
  have htr : download_artifact message =
      ((extract_code_blocks (combinedOf message)).length,
        FileEvent.writeInspection (combinedOf message) ::
          FileEvent.extractAttempt (combinedOf message) ::
          (extract_code_blocks (combinedOf message)).map
            (fun p => FileEvent.writeOutput p.1 p.2)) := by
    simp only [download_artifact, if_neg hne]
    rw [if_neg hfe]
  refine ⟨by rw [htr], by rw [htr], ?_⟩
  intro f c hmem
  rw [htr]
  exact List.mem_cons_of_mem _ (List.mem_cons_of_mem _
    (List.mem_map_of_mem (fun p => FileEvent.writeOutput p.1 p.2) hmem))

/-- Witness for C6: a path-traversal filename extracted from the model
output is written verbatim, with no sanitization. -/
theorem claim_C6_witness :
    FileEvent.writeOutput (("../../etc/passwd").data) (("stolen").data) ∈
      (download_artifact (Response.mk "end_turn"
        [ContentBlock.text
          (("```csv:../../etc/passwd\nstolen\n```").data)])).2 := by
  exact (claim_C6 (Response.mk "end_turn"
      [ContentBlock.text
        (("```csv:../../etc/passwd\nstolen\n```").data)])
    (by decide) (by decide)).2.2 (("../../etc/passwd").data) (("stolen").data) (by decide)

/-! ## Properties of the HTML renderer -/

theorem contains_of_stripLit :
    ∀ (pat s : List Char), (stripLit pat s).isSome = true → containsL pat s = true := by
  intro pat s h
  cases s with
  | nil => simpa [containsL] using h
  | cons c rest => simp [containsL, h]

theorem stripLit_append_some :
    ∀ (pat s t r : List Char), stripLit pat s = some r →
      stripLit pat (s ++ t) = some (r ++ t) := by
  intro pat
  induction pat with
  | nil =>
    intro s t r h
    simp only [stripLit, Option.some.injEq] at h
    subst h
    rfl
  | cons p ps ih =>
    intro s t r h
    cases s with
    | nil => cases h
    | cons c cs =>
      simp only [stripLit] at h ⊢
      by_cases hpc : p = c
      · rw [if_pos hpc] at h ⊢
        exact ih cs t r h
      · rw [if_neg hpc] at h
        cases h

theorem contains_append_left :
    ∀ (pat a b : List Char), containsL pat a = true → containsL pat (a ++ b) = true := by
  intro pat a
  induction a with
  | nil =>
    intro b h
    cases pat with
    | nil => exact contains_of_stripLit [] b (by simp [stripLit])
    | cons p ps => simp [containsL, stripLit] at h
  | cons c cs ih =>
    intro b h
    simp only [containsL, Bool.or_eq_true] at h
    rcases h with h | h
    · obtain ⟨r, hr⟩ := Option.isSome_iff_exists.mp h
      have h2 := stripLit_append_some pat (c :: cs) b r hr
      rw [List.cons_append] at h2
      exact contains_of_stripLit pat (c :: (cs ++ b)) (by simp [h2])
    · have := ih b h
      simp [containsL, this]

theorem contains_append_right :
    ∀ (pat a b : List Char), containsL pat b = true → containsL pat (a ++ b) = true := by
  intro pat a
  induction a with
  | nil => intro b h; simpa using h
  | cons c cs ih =>
    intro b h
    simp [containsL, ih b h]

/-- C7: a game row carries the class `game-completed` exactly when its
trimmed Result is non-empty and `game-upcoming` otherwise; a trimmed
Result beginning with W renders in a `result-win` span, one beginning
with L in a `result-loss` span, any other non-empty Result renders
bare, and an empty Result renders the `result-upcoming` placeholder
glyph; in particular a row with Result `W 24-10` and Location `Home`
renders both the win span and the `game-completed home-game` classes
whatever the other fields hold. -/
theorem claim_C7 :
    (∀ game : Row,
      (row_class game = ("game-completed").data ↔ result_of game ≠ []) ∧
      (row_class game = ("game-upcoming").data ↔ result_of game = []) ∧
      (startsWithL (("W").data) (result_of game) = true →
        result_html game =
          ("<span class=\"result-win\">").data ++ result_of game ++ ("</span>").data) ∧
      (startsWithL (("W").data) (result_of game) = false →
        startsWithL (("L").data) (result_of game) = true →
        result_html game =
          ("<span class=\"result-loss\">").data ++ result_of game ++ ("</span>").data) ∧
      (result_of game ≠ [] → startsWithL (("W").data) (result_of game) = false →
        startsWithL (("L").data) (result_of game) = false →
        result_html game = result_of game) ∧
      (result_of game = [] →
        result_html game = ("<span class=\"result-upcoming\">—</span>").data)) ∧
    (∀ date day opp venue time ev watch,
      containsL (("<span class=\"result-win\">W 24-10</span>").data)
        (format_game_row (mkGame date day opp (("Home").data) venue time ev watch
          (("W 24-10").data))) = true ∧
      containsL (("class=\"game-completed home-game\"").data)
        (format_game_row (mkGame date day opp (("Home").data) venue time ev watch
          (("W 24-10").data))) = true) := by
  constructor
  · intro game
    refine ⟨?_, ?_, ?_, ?_, ?_, ?_⟩
    · by_cases h : result_of game = [] <;> simp [row_class, h]
    · by_cases h : result_of game = [] <;> simp [row_class, h]
    · intro hW
      have hne : result_of game ≠ [] := by
        intro h
        rw [h] at hW
        cases hW
      simp [result_html, hne, hW]
    · intro hW hL
      have hne : result_of game ≠ [] := by
        intro h
        rw [h] at hL
        cases hL
      simp [result_html, hne, hW, hL]
    · intro hne hW hL
      simp [result_html, hne, hW, hL]
    · intro h
      simp [result_html, h]
  · intro date day opp venue time ev watch
    constructor
    · have hrh : result_html (mkGame date day opp (("Home").data) venue time ev watch
          (("W 24-10").data)) = ("<span class=\"result-win\">W 24-10</span>").data := rfl
      simp only [format_game_row, hrh, List.append_assoc]
      repeat first
        | exact (by decide)
        | apply contains_append_right
    · have hrc : row_class (mkGame date day opp (("Home").data) venue time ev watch
          (("W 24-10").data)) = ("game-completed").data := rfl
      have hlc : location_class (mkGame date day opp (("Home").data) venue time ev watch
          (("W 24-10").data)) = ("home-game").data := rfl
      unfold format_game_row
      rw [hrc, hlc]
      repeat first
        | exact (by decide)
        | apply contains_append_left

/-- Witness for C7: a concrete loss row renders the loss span, and the
round-trip conjunct holds at concrete field values. -/
theorem claim_C7_witness :
    result_html (mkGame (("9/1").data) (("Sat").data) (("Iowa").data) (("Away").data)
        (("Kinnick").data) (("2:30 PM").data) ([]) (("ESPN").data) (("L 10-20").data)) =
      ("<span class=\"result-loss\">").data ++ ("L 10-20").data ++ ("</span>").data ∧
    containsL (("class=\"game-completed home-game\"").data)
      (format_game_row (mkGame (("9/8").data) (("Sat").data) (("Akron").data)
        (("Home").data) (("Memorial").data) (("6:30 PM").data) ([]) (("BTN").data)
        (("W 24-10").data))) = true := by
  constructor
  · exact ((claim_C7.1 (mkGame (("9/1").data) (("Sat").data) (("Iowa").data)
      (("Away").data) (("Kinnick").data) (("2:30 PM").data) ([]) (("ESPN").data)
      (("L 10-20").data))).2.2.2.1 (by decide) (by decide))
  · exact (claim_C7.2 (("9/8").data) (("Sat").data) (("Akron").data)
      (("Memorial").data) (("6:30 PM").data) ([]) (("BTN").data)).2

/-- The location accent rule as the specification words it: first the
case-insensitive exact-equality test against home and lincoln ne, then
the case-insensitive substring test against the neutral-site markers,
else away. -/
def location_class_spec (location : List Char) : List Char :=
  if lowerL location = ("home").data ∨ lowerL location = ("lincoln ne").data then
    ("home-game").data
  else if containsL (("neutral").data) (lowerL location) ∨
      containsL (("kansas city").data) (lowerL location) ∨
      containsL (("sioux falls").data) (lowerL location) then
    ("neutral-game").data
  else ("away-game").data

/-- C8: the location accent class of a row agrees with the
specification's rule, with the exact-match home test applied before the
substring neutral test: exact match on home or lincoln ne gives the
home class, otherwise a substring hit on neutral, kansas city or sioux
falls gives the neutral class, otherwise the away class. -/
theorem claim_C8 (game : Row) :
    location_class game = location_class_spec (location_of game) ∧
    ((lowerL (location_of game) = ("home").data ∨
        lowerL (location_of game) = ("lincoln ne").data) →
      location_class game = ("home-game").data) ∧
    (¬(lowerL (location_of game) = ("home").data ∨
        lowerL (location_of game) = ("lincoln ne").data) →
      (containsL (("neutral").data) (lowerL (location_of game)) = true ∨
        containsL (("kansas city").data) (lowerL (location_of game)) = true ∨
        containsL (("sioux falls").data) (lowerL (location_of game)) = true) →
      location_class game = ("neutral-game").data) ∧
    (¬(lowerL (location_of game) = ("home").data ∨
        lowerL (location_of game) = ("lincoln ne").data) →
      ¬(containsL (("neutral").data) (lowerL (location_of game)) = true ∨
        containsL (("kansas city").data) (lowerL (location_of game)) = true ∨
        containsL (("sioux falls").data) (lowerL (location_of game)) = true) →
      location_class game = ("away-game").data) := by
  refine ⟨rfl, ?_, ?_, ?_⟩
  · intro h
    simp [location_class, h]
  · intro h1 h2
    rw [location_class, if_neg h1, if_pos (by simpa using h2)]
  · intro h1 h2
    rw [location_class, if_neg h1, if_neg (by simpa using h2)]

/-- Witness for C8: a neutral-site location that is no exact home match
takes the neutral class. -/
theorem claim_C8_witness :
    location_class (mkGame ([]) ([]) ([]) (("Kansas City, MO").data)
        ([]) ([]) ([]) ([]) ([])) = ("neutral-game").data := by
  exact (claim_C8 (mkGame ([]) ([]) ([]) (("Kansas City, MO").data)
    ([]) ([]) ([]) ([]) ([]))).2.2.1 (by decide) (by decide)

theorem splitOnChar_no :
    ∀ (c : Char) (s : List Char), c ∉ s → splitOnChar c s = [s] := by
  intro c s
  induction s with
  | nil => intro _; rfl
  | cons x xs ih =>
    intro h
    have hx : ¬(x = c) := fun e => h (by rw [e]; exact List.mem_cons_self c xs)
    have hxs := ih (fun m => h (List.mem_cons_of_mem x m))
    simp only [splitOnChar, hxs, if_neg hx]

theorem parseRecords_single :
    ∀ (hdr : List Char), '\n' ∉ hdr →
      parseRecords hdr = if hdr = [] then [] else [splitOnChar ',' hdr] := by
  intro hdr h
  unfold parseRecords
  rw [splitOnChar_no '\n' hdr h]
  by_cases he : hdr = [] <;> simp [he]

theorem dictReader_single :
    ∀ (hdr : List Char), '\n' ∉ hdr → dictReader hdr = [] := by
  intro hdr h
  unfold dictReader
  rw [parseRecords_single hdr h]
  by_cases he : hdr = [] <;> simp [he]

theorem section_of_empty :
    ∀ (fs : FileSys) (n f : List Char), read_csv fs f = [] →
      generate_sport_section fs n f = placeholderSection n := by
  intro fs n f h
  simp [generate_sport_section, h]

set_option maxRecDepth 4000 in
/-- The literal text of the table section is strictly longer than that
of the placeholder section. -/
theorem tableParts_longer :
    placeholderPart0.length + placeholderPart1.length + placeholderPart2.length +
      placeholderPart3.length <
    tableHeadPart0.length + tableHeadPart1.length + tableHeadPart2.length +
      tableHeadPart3.length + tableTailPart0.length := by decide

theorem section_placeholder_iff :
    ∀ (fs : FileSys) (n f : List Char),
      generate_sport_section fs n f = placeholderSection n ↔ read_csv fs f = [] := by
  intro fs n f
  constructor
  · intro h
    by_contra hne
    rw [generate_sport_section] at h
    rw [if_neg hne] at h
    have hlen := congrArg List.length h
    have hPT := tableParts_longer
    simp only [placeholderSection, List.length_append, upperL, List.length_map] at hlen
    omega
  · exact section_of_empty fs n f

theorem sportsSections_append :
    ∀ (fs : FileSys) (l1 l2 : List Sport),
      sportsSections fs (l1 ++ l2) = sportsSections fs l1 ++ sportsSections fs l2 := by
  intro fs l1
  induction l1 with
  | nil => intro l2; rfl
  | cons s rest ih =>
    intro l2
    simp only [List.cons_append, sportsSections]
    rw [show rest.append l2 = rest ++ l2 from rfl, ih l2, List.append_assoc]

set_option maxRecDepth 8000 in
/-- C9: a configured sport whose CSV file is absent renders the
"Schedule not yet available" placeholder section with no table markup,
and every configured sport's section appears in the generated page
whatever files are absent, so one missing CSV never stops the rest of
the page. -/
theorem claim_C9 :
    (∀ (fs : FileSys) (sport : Sport), fs sport.filename = none →
      generate_sport_section fs sport.name sport.filename =
        placeholderSection sport.name) ∧
    (∀ name, name ∈ [("Football").data, ("Baseball").data, ("Softball").data,
        ("Men\x27s Basketball").data, ("Women\x27s Basketball").data,
        ("Volleyball").data] →
      containsL (("<table").data) (placeholderSection name) = false) ∧
    (∀ (fs : FileSys) (sports : List Sport) (last_updated : List Char) (year : Nat)
        (sport : Sport), sport ∈ sports →
      ∃ pre post, generate_html fs sports last_updated year =
        pre ++ (generate_sport_section fs sport.name sport.filename ++ post)) := by
  refine ⟨?_, by decide, ?_⟩
  · intro fs sport h
    exact section_of_empty fs sport.name sport.filename (by simp [read_csv, h])
  · intro fs sports last_updated year sport hmem
    obtain ⟨s, t, rfl⟩ := List.append_of_mem hmem
    refine ⟨htmlHeadPart0 ++ (Nat.repr year).data ++ htmlHeadPart1 ++
      (Nat.repr (year + 1)).data ++ htmlHeadPart2 ++ (Nat.repr year).data ++
      htmlHeadPart3 ++ (Nat.repr (year + 1)).data ++ htmlHeadPart4 ++
      last_updated ++ htmlHeadPart5 ++ sportsSections fs s,
      sportsSections fs t ++ htmlFooterPart0, ?_⟩
    simp [generate_html, sportsSections_append, sportsSections, List.append_assoc]

/-- Witness for C9: with no files on disk, the Football section is the
placeholder, and the Football section appears inside the one-sport
page. -/
theorem claim_C9_witness :
    generate_sport_section (fun _ => none) (("Football").data) (("Football.csv").data) =
      placeholderSection (("Football").data) ∧
    ∃ pre post, generate_html (fun _ => none)
        [Sport.mk (("Football").data) (("Football.csv").data)]
        (("October 12, 2026").data) 2026 =
      pre ++ (generate_sport_section (fun _ => none) (("Football").data)
        (("Football.csv").data) ++ post) := by
  constructor
  · exact claim_C9.1 (fun _ => none)
      (Sport.mk (("Football").data) (("Football.csv").data)) rfl
  · exact claim_C9.2.2 (fun _ => none)
      [Sport.mk (("Football").data) (("Football.csv").data)]
      (("October 12, 2026").data) 2026
      (Sport.mk (("Football").data) (("Football.csv").data)) (List.mem_singleton.mpr rfl)

/-- C10: a sport whose CSV exists but parses to zero data rows (a
header-only file or an empty file) renders exactly the placeholder
section an absent file renders: the placeholder appears if and only if
the parsed row list is empty, independently of file existence. -/
theorem claim_C10 (fs : FileSys) (sport_name filename : List Char) :
    (generate_sport_section fs sport_name filename = placeholderSection sport_name ↔
      read_csv fs filename = []) ∧
    (∀ hdr, '\n' ∉ hdr →
      generate_sport_section (fun f => if f = filename then some hdr else none)
        sport_name filename = placeholderSection sport_name) ∧
    (generate_sport_section (fun f => if f = filename then some [] else none)
        sport_name filename = placeholderSection sport_name) ∧
    (generate_sport_section (fun _ => none) sport_name filename =
      placeholderSection sport_name) := by
  refine ⟨section_placeholder_iff fs sport_name filename, ?_, ?_, ?_⟩
  · intro hdr hnl
    refine section_of_empty _ sport_name filename ?_
    simp [read_csv, dictReader_single hdr hnl]
  · refine section_of_empty _ sport_name filename ?_
    simp [read_csv, dictReader_single [] (by simp)]
  · exact section_of_empty _ sport_name filename (by simp [read_csv])

/-- Witness for C10: a header-only Football.csv renders the placeholder
section. -/
theorem claim_C10_witness :
    generate_sport_section
        (fun f => if f = (("Football.csv").data) then
          some (("Date,Day,Opponent,Location,Venue,Time,Event,Watch,Result").data)
          else none)
        (("Football").data) (("Football.csv").data) =
      placeholderSection (("Football").data) := by
  exact (claim_C10 (fun f => if f = (("Football.csv").data) then
      some (("Date,Day,Opponent,Location,Venue,Time,Event,Watch,Result").data)
      else none) (("Football").data) (("Football.csv").data)).2.1
    (("Date,Day,Opponent,Location,Venue,Time,Event,Watch,Result").data) (by decide)
